import Mathlib

/-!
Verification of the parallel job-runner core (src/main.rs) against its
specification.  The shallow embedding below translates the data model and
the operations of the source: placeholder substitution via Rust's
str::replace, the interactive gate of add_jobs, the worker loop of
start_workers (sequence numbers, duration computation), the worker-count
expression of main, and the result-collector loop of main.  Timestamps are
modelled as integers, the execution backend as an explicit function
argument (the spec excludes it from the core, requiring only the signature
(checkOnly, command) -> exitCode).
-/

namespace Parallelion

/-- Model of Rust char::is_whitespace restricted to the ASCII whitespace
characters Lean knows; the prompt inputs of interest only contain these. -/
def rustIsWhitespace (c : Char) : Bool := c.isWhitespace

/-- Model of Rust str::trim: remove leading and trailing whitespace. -/
def rustTrim (s : String) : String :=
  ⟨((s.data.dropWhile rustIsWhitespace).reverse.dropWhile rustIsWhitespace).reverse⟩

/-- One step-bounded pass of Rust str::replace over a character list:
scan left to right, and at each position where the (non-empty) pattern is a
prefix, emit the replacement and skip past the match; otherwise keep the
character.  The fuel argument is initialised to the list length, which
suffices because every step consumes at least one character. -/
def replaceFuel (p r : List Char) : Nat → List Char → List Char
  | _, [] => []
  | 0, c :: rest => c :: rest
  | fuel + 1, c :: rest =>
    if p.isPrefixOf (c :: rest) && !p.isEmpty then
      r ++ replaceFuel p r fuel (rest.drop (p.length - 1))
    else
      c :: replaceFuel p r fuel rest

/-- Model of Rust str::replace (for a non-empty pattern): replace every
non-overlapping occurrence of pat in s by rep, left to right. -/
def rustReplace (s pat rep : String) : String :=
  ⟨replaceFuel pat.data rep.data s.data.length s.data⟩

/-- Whether p occurs as a contiguous sublist (substring) of s. -/
def containsSub (p : List Char) : List Char → Bool
  | [] => p.isEmpty
  | c :: rest => p.isPrefixOf (c :: rest) || containsSub p rest

/-- The JobResult record of the source (timestamps and durations as
integers, exit_code as an integer). -/
structure JobResult where
  seq : Nat
  exit_code : Int
  start : Int
  duration : Int
  cmd : String
deriving DecidableEq, Repr

/-- The body of the worker loop of start_workers for one received job:
record the start time, resolve the command by substituting the placeholder,
invoke the backend, and compute the duration the way the source does —
start.signed_duration_since(Local::now()), i.e. startTime - endTime.
The seq field is the value the enclosing thread closure captured. -/
def runJob (seq : Nat) (check_only : Bool) (task job : String)
    (exec : Bool → String → Int) (startTime endTime : Int) : JobResult :=
  let cmd := rustReplace task "\x7b\x7d" job
  { seq := seq
    start := startTime
    duration := startTime - endTime
    cmd := cmd
    exit_code := exec check_only cmd }

/-- One worker of start_workers: it processes, in order, the list of jobs
it wins from the job channel, producing one JobResult per job; times k
gives the (start, end) timestamps of its k-th job.  Every result carries
the seq value the worker was spawned with. -/
def workerRun (seq : Nat) (check_only : Bool) (task : String)
    (exec : Bool → String → Int) (times : Nat → Int × Int)
    (js : List String) : List JobResult :=
  js.enum.map (fun p => runJob seq check_only task p.2 exec (times p.1).1 (times p.1).2)

/-- start_workers: spawn n workers, the worker of index seq in 0..n
receiving seq as its sequence value; assign seq is the list of jobs that
worker dequeues during the run (the channel hands each submitted job to
exactly one worker).  The collector receives the results of all workers;
arrival order is immaterial to the claims, which are about the multiset. -/
def start_workers (n : Nat) (check_only : Bool) (task : String)
    (exec : Bool → String → Int) (times : Nat → Nat → Int × Int)
    (assign : Nat → List String) : List JobResult :=
  (List.range n).flatMap
    (fun seq => workerRun seq check_only task exec (times seq) (assign seq))

/-- The worker-count expression of main:
opts.jobs.unwrap_or_else(num_cpus::get).min(opts.arguments.len()). -/
def workerCount (jobs : Option Nat) (numCpus : Nat) (argumentsLen : Nat) : Nat :=
  (jobs.getD numCpus).min argumentsLen

/-- The three recognised prompt answers of add_jobs, after trimming. -/
inductive GateAnswer
  | yes
  | no
  | all
  | invalid
deriving DecidableEq, Repr

/-- Classification of one prompt input line, following the match on
input.trim() in add_jobs. -/
def classify (s : String) : GateAnswer :=
  let t := rustTrim s
  if t = "y" ∨ t = "Y" ∨ t = "yes" ∨ t = "Yes" ∨ t = "" then .yes
  else if t = "n" ∨ t = "N" ∨ t = "no" ∨ t = "No" then .no
  else if t = "a" ∨ t = "A" ∨ t = "all" ∨ t = "All" ∨ t = "always" ∨ t = "Always" then .all
  else .invalid

/-- Outcome of one interactive prompt: proceed with this argument
(alw records whether the answer was affirm-all) or skip it. -/
inductive Decision
  | go (alw : Bool)
  | skip
deriving DecidableEq, Repr

/-- The prompt loop of add_jobs: read lines until one is recognised;
an unrecognised line prints "Invalid choice" and the prompt repeats.
none models read_line returning 0 bytes (end of input), on which the
source exits fatally.  Returns the decision and the unread input. -/
def promptLoop : List String → Option (Decision × List String)
  | [] => none
  | s :: rest =>
    match classify s with
    | .yes => some (.go false, rest)
    | .no => some (.skip, rest)
    | .all => some (.go true, rest)
    | .invalid => promptLoop rest

/-- add_jobs restricted to its gate logic: for each argument in order,
when ask holds and the always flag is not yet set, run the prompt loop on
the remaining input lines; on skip the argument is dropped (no send), on
go it is sent, and affirm-all sets the always flag for the rest of the
run.  Returns the list of sent arguments together with the unread input,
or none when prompt input was exhausted (fatal exit in the source). -/
def add_jobs (ask : Bool) : Bool → List String → List String →
    Option (List String × List String)
  | _, [], ins => some ([], ins)
  | always, arg :: args, ins =>
    if ask && !always then
      match promptLoop ins with
      | none => none
      | some (.go alw, ins') =>
        (add_jobs ask (always || alw) args ins').map (fun p => (arg :: p.1, p.2))
      | some (.skip, ins') => add_jobs ask always args ins'
    else
      (add_jobs ask always args ins).map (fun p => (arg :: p.1, p.2))

/-- The collector either hard-exits mid-drain (std::process::exit(1) under
halt-on-error) or drains the queue and exits with the accumulated code. -/
inductive CollectorOutcome
  | halted (code : Nat)
  | drained (code : Nat)
deriving DecidableEq, Repr

/-- The result-collection loop of main: for each received result, when the
run is not a dry run and the exit code is nonzero, either exit(1) at once
(halt-on-error) or record failure in the accumulator; at channel closure
exit with the accumulator. -/
def collectLoop (dry_run halt : Bool) : Nat → List JobResult → CollectorOutcome
  | e, [] => .drained e
  | e, r :: rs =>
    if !dry_run && r.exit_code != 0 then
      if halt then .halted 1
      else collectLoop dry_run halt 1 rs
    else collectLoop dry_run halt e rs

/-! Helper lemmas. -/

/-- replaceFuel leaves a list without an occurrence of the pattern
unchanged, whatever the fuel. -/
theorem replaceFuel_of_not_contains (p r : List Char) :
    ∀ (fuel : Nat) (s : List Char), containsSub p s = false →
      replaceFuel p r fuel s = s := by
  intro fuel
  induction fuel with
  | zero =>
    intro s _
    cases s <;> rfl
  | succ m ih =>
    intro s hs
    cases s with
    | nil => rfl
    | cons c rest =>
      simp only [containsSub, Bool.or_eq_false_iff] at hs
      simp [replaceFuel, hs.1, ih rest hs.2]

/-- With the always flag set, add_jobs sends every argument and reads no
prompt input at all. -/
theorem add_jobs_always (ask : Bool) (args ins : List String) :
    add_jobs ask true args ins = some (args, ins) := by
  induction args with
  | nil => rfl
  | cons a as ih => simp [add_jobs, ih]

/-- With halt off and no dry run, the collector drains everything and
exits 1 exactly when some result failed (or the accumulator already
records a failure). -/
theorem collectLoop_no_halt (rs : List JobResult) :
    ∀ e : Nat, collectLoop false false e rs =
      .drained (if rs.any (fun r => r.exit_code != 0) then 1 else e) := by
  induction rs with
  | nil => intro e; rfl
  | cons r rs ih =>
    intro e
    by_cases h : r.exit_code = 0
    · simp [collectLoop, List.any_cons, h, ih e]
    · simp [collectLoop, List.any_cons, h, ih 1]

/-- Every result a worker publishes carries the seq value that worker was
spawned with, not a per-job sequence number. -/
theorem workerRun_seq (seq : Nat) (check_only : Bool) (task : String)
    (exec : Bool → String → Int) (times : Nat → Int × Int) (js : List String) :
    ∀ r ∈ workerRun seq check_only task exec times js, r.seq = seq := by
  intro r hr
  simp only [workerRun, List.mem_map] at hr
  obtain ⟨p, _, rfl⟩ := hr
  rfl

/-- In a dry run the collector ignores exit codes; the accumulator never
changes. -/
theorem collectLoop_dry (halt : Bool) (rs : List JobResult) :
    ∀ e : Nat, collectLoop true halt e rs = .drained e := by
  induction rs with
  | nil => intro e; rfl
  | cons r rs ih => intro e; simp [collectLoop, ih e]

/-! The claims. -/

/-- C1: the claim says sequence values of the results of an N-job run form
the set 0..N-1, assigned by the producer in production order.  In the code
seq is the index of the worker thread (for seq in 0..n), stamped on every
result that worker produces: a run of 2 jobs on 1 worker yields the
sequence values 0, 0 — not the distinct values 0, 1. -/
theorem c1_seq_is_worker_index :
    ((start_workers 1 false "echo \x7b\x7d" (fun _ _ => 0) (fun _ _ => (0, 0))
        (fun _ => ["a", "b"])).map (fun r => r.seq)) = [0, 0] ∧
    ¬ ([0, 0] : List Nat).Nodup := by
  constructor
  · decide
  · decide

/-- C2: the claim says duration = end - start and is never negative.  The
code computes start.signed_duration_since(Local::now()), i.e. start - end:
for a job started at time 0 whose backend call returns at time 5 the
recorded duration is -5, a negative span. -/
theorem c2_duration_negative :
    (runJob 0 false "pwd" "a" (fun _ _ => 0) 0 5).duration = -5 ∧
    (runJob 0 false "pwd" "a" (fun _ _ => 0) 0 5).duration < 0 := by
  constructor
  · decide
  · decide

/-- C3: the claim says that with a streamed argument source (empty
explicit list) the worker count is configuredJobs (or the core count) with
no clamp.  The code always clamps by opts.arguments.len(), which is 0 for
a streamed run, so the worker count is 0 whatever is configured. -/
theorem c3_streamed_count_clamped_to_zero :
    (∀ (cfg : Option Nat) (cpus : Nat), workerCount cfg cpus 0 = 0) ∧
    workerCount (some 4) 8 0 = 0 := by
  constructor
  · intro cfg cpus; simp [workerCount]
  · decide

/-- C4: the claim (and the flag's own doc comment) says --jobs 0 means one
worker per argument.  The code computes min(0, arguments.len()) = 0 and
spawns no worker at all: with 3 arguments the worker count is 0, not 3. -/
theorem c4_jobs_zero_spawns_no_worker :
    (∀ (cpus len : Nat), workerCount (some 0) cpus len = 0) ∧
    workerCount (some 0) 8 3 = 0 := by
  constructor
  · intro cpus len; simp [workerCount]
  · decide

/-- C5: when every submitted job is consumed by exactly one worker (the
flattened per-worker assignment is a permutation of the submitted job
list), the collector receives exactly one JobResult per submitted job:
the worker loop publishes exactly one result per received job. -/
theorem c5_exactly_n_results (n : Nat) (check_only : Bool) (task : String)
    (exec : Bool → String → Int) (times : Nat → Nat → Int × Int)
    (assign : Nat → List String) (jobs : List String)
    (h : ((List.range n).flatMap assign).Perm jobs) :
    (start_workers n check_only task exec times assign).length = jobs.length := by
  have h1 : ∀ l : List Nat,
      (l.flatMap (fun seq =>
        workerRun seq check_only task exec (times seq) (assign seq))).length =
      (l.flatMap assign).length := by
    intro l
    induction l with
    | nil => rfl
    | cons x xs ih =>
      simp only [List.flatMap_cons, List.length_append, ih]
      simp [workerRun]
  calc (start_workers n check_only task exec times assign).length
      = ((List.range n).flatMap assign).length := h1 (List.range n)
    _ = jobs.length := h.length_eq

/-- Witness for C5 at a concrete run: 2 workers, jobs a and b split one
each. -/
theorem c5_exactly_n_results_witness :
    ((List.range 2).flatMap
        (fun i => if i = 0 then ["a"] else ["b"])).Perm ["a", "b"] ∧
    (start_workers 2 false "c" (fun _ _ => 0) (fun _ _ => (0, 0))
        (fun i => if i = 0 then ["a"] else ["b"])).length = ["a", "b"].length :=
  ⟨by decide,
   c5_exactly_n_results 2 false "c" (fun _ _ => 0) (fun _ _ => (0, 0))
     (fun i => if i = 0 then ["a"] else ["b"]) ["a", "b"] (by decide)⟩

/-- C6: the resolved command of a job is the template with every
placeholder occurrence replaced by the argument: it is exactly
rustReplace task (the placeholder) job; the template "echo" followed by
the placeholder resolves with argument x to "echo x"; and a template with
no placeholder occurrence resolves to itself for every argument. -/
theorem c6_placeholder_substitution :
    (∀ (seq : Nat) (check_only : Bool) (task job : String)
        (exec : Bool → String → Int) (t₁ t₂ : Int),
      (runJob seq check_only task job exec t₁ t₂).cmd =
        rustReplace task "\x7b\x7d" job) ∧
    rustReplace "echo \x7b\x7d" "\x7b\x7d" "x" = "echo x" ∧
    (∀ task arg : String, containsSub ("\x7b\x7d".data) task.data = false →
      rustReplace task "\x7b\x7d" arg = task) := by
  refine ⟨fun _ _ _ _ _ _ _ => rfl, by decide, ?_⟩
  intro task arg h
  cases task with
  | mk l =>
    exact congrArg String.mk
      (replaceFuel_of_not_contains ("\x7b\x7d".data) arg.data l.length l h)

/-- Witness for C6 on a template without the placeholder. -/
theorem c6_placeholder_substitution_witness :
    containsSub ("\x7b\x7d".data) "ls -l".data = false ∧
    rustReplace "ls -l" "\x7b\x7d" "x" = "ls -l" :=
  ⟨by decide, c6_placeholder_substitution.2.2 "ls -l" "x" (by decide)⟩

/-- C7: in dry-run mode exit codes are excluded from failure accounting
and the collector exits with status 0, whatever the results carry and
whether or not halt-on-error is set. -/
theorem c7_dry_run_exits_zero (halt : Bool) (rs : List JobResult) :
    collectLoop true halt 0 rs = .drained 0 :=
  collectLoop_dry halt rs 0

/-- C8: declining an argument drops it — the run continues exactly as if
the argument had not existed, producing no job for it; affirm-all sends
the current and all remaining arguments and reads no further prompt input;
an unrecognised input line is discarded and the prompt repeats on the
remaining input. -/
theorem c8_interactive_gate :
    (∀ (a : String) (args ins : List String),
      add_jobs true false (a :: args) ("n" :: ins) =
        add_jobs true false args ins) ∧
    (∀ (b : String) (args ins : List String),
      add_jobs true false (b :: args) ("a" :: ins) =
        some (b :: args, ins)) ∧
    (∀ (s : String) (ins : List String), classify s = .invalid →
      promptLoop (s :: ins) = promptLoop ins) := by
  refine ⟨?_, ?_, ?_⟩
  · intro a args ins
    simp [add_jobs, promptLoop, (show classify "n" = GateAnswer.no by decide)]
  · intro b args ins
    simp [add_jobs, promptLoop, (show classify "a" = GateAnswer.all by decide),
      add_jobs_always]
  · intro s ins h
    simp [promptLoop, h]

/-- Witness for C8: a declined first argument, an affirm-all answer, and
an unrecognised answer at concrete inputs. -/
theorem c8_interactive_gate_witness :
    add_jobs true false ["a", "b"] ["n", "y"] = add_jobs true false ["b"] ["y"] ∧
    add_jobs true false ["b", "c"] ["a"] = some (["b", "c"], []) ∧
    (classify "maybe" = .invalid ∧ promptLoop ["maybe", "y"] = promptLoop ["y"]) :=
  ⟨c8_interactive_gate.1 "a" ["b"] ["y"],
   c8_interactive_gate.2.1 "b" ["c"] [],
   by decide,
   c8_interactive_gate.2.2 "maybe" ["y"] (by decide)⟩

/-- C9: with halt-on-error, the first nonzero exit code makes the
collector exit 1 at once, whatever results remain unprocessed; otherwise
the collector drains the whole queue to closure: with halt-on-error
configured but every job succeeding it exits 0, and without halt-on-error
it exits 1 exactly when some job failed, else 0. -/
theorem c9_halt_on_error :
    (∀ (pre post : List JobResult) (bad : JobResult) (e : Nat),
      (∀ r ∈ pre, r.exit_code = 0) → bad.exit_code ≠ 0 →
      collectLoop false true e (pre ++ bad :: post) = .halted 1) ∧
    (∀ rs : List JobResult, (∀ r ∈ rs, r.exit_code = 0) →
      collectLoop false true 0 rs = .drained 0) ∧
    (∀ rs : List JobResult,
      collectLoop false false 0 rs =
        .drained (if rs.any (fun r => r.exit_code != 0) then 1 else 0)) := by
  refine ⟨?_, ?_, ?_⟩
  · intro pre
    induction pre with
    | nil =>
      intro post bad e _ hbad
      simp [collectLoop, hbad]
    | cons r pre ih =>
      intro post bad e hok hbad
      have hr : r.exit_code = 0 := hok r (List.mem_cons_self r pre)
      simp only [List.cons_append]
      rw [show collectLoop false true e (r :: (pre ++ bad :: post)) =
        collectLoop false true e (pre ++ bad :: post) by simp [collectLoop, hr]]
      exact ih post bad e (fun x hx => hok x (List.mem_cons_of_mem r hx)) hbad
  · have aux : ∀ rs : List JobResult, (∀ r ∈ rs, r.exit_code = 0) →
        ∀ e, collectLoop false true e rs = .drained e := by
      intro rs
      induction rs with
      | nil => intro _ e; rfl
      | cons r rs ih =>
        intro hok e
        have hr : r.exit_code = 0 := hok r (List.mem_cons_self r rs)
        have htl := ih (fun x hx => hok x (List.mem_cons_of_mem r hx)) e
        simp [collectLoop, hr, htl]
    intro rs hok
    exact aux rs hok 0
  · intro rs
    exact collectLoop_no_halt rs 0

/-- Witness for C9: one clean result, then a failing one, then a leftover;
the halting run, the all-success halt-configured run, and a draining run
are each evaluated concretely. -/
theorem c9_halt_on_error_witness :
    (∀ r ∈ [JobResult.mk 0 0 0 0 "c"], r.exit_code = 0) ∧
    (JobResult.mk 1 2 0 0 "c").exit_code ≠ 0 ∧
    collectLoop false true 0
      ([JobResult.mk 0 0 0 0 "c"] ++
        JobResult.mk 1 2 0 0 "c" :: [JobResult.mk 2 0 0 0 "c"]) = .halted 1 ∧
    (∀ r ∈ [JobResult.mk 0 0 0 0 "c", JobResult.mk 2 0 0 0 "c"],
      r.exit_code = 0) ∧
    collectLoop false true 0
      [JobResult.mk 0 0 0 0 "c", JobResult.mk 2 0 0 0 "c"] = .drained 0 ∧
    collectLoop false false 0 [JobResult.mk 0 0 0 0 "c", JobResult.mk 1 2 0 0 "c"] =
      .drained (if [JobResult.mk 0 0 0 0 "c", JobResult.mk 1 2 0 0 "c"].any
        (fun r => r.exit_code != 0) then 1 else 0) :=
  ⟨by decide, by decide,
   c9_halt_on_error.1 [JobResult.mk 0 0 0 0 "c"] [JobResult.mk 2 0 0 0 "c"]
     (JobResult.mk 1 2 0 0 "c") 0 (by decide) (by decide),
   by decide,
   c9_halt_on_error.2.1 [JobResult.mk 0 0 0 0 "c", JobResult.mk 2 0 0 0 "c"]
     (by decide),
   c9_halt_on_error.2.2 [JobResult.mk 0 0 0 0 "c", JobResult.mk 1 2 0 0 "c"]⟩

/-- C10: an empty prompt line (Enter with no text) is classified exactly
like the explicit affirmative answers y, Y, yes, Yes: the prompt returns
affirm-once and the argument is sent as a job. -/
theorem c10_empty_input_affirms :
    (∀ ins : List String,
      promptLoop ("" :: ins) = some (.go false, ins) ∧
      promptLoop ("y" :: ins) = some (.go false, ins) ∧
      promptLoop ("Y" :: ins) = some (.go false, ins) ∧
      promptLoop ("yes" :: ins) = some (.go false, ins) ∧
      promptLoop ("Yes" :: ins) = some (.go false, ins)) ∧
    add_jobs true false ["a"] [""] = some (["a"], []) := by
  constructor
  · intro ins
    refine ⟨?_, ?_, ?_, ?_, ?_⟩ <;>
      simp [promptLoop, (show classify "" = GateAnswer.yes by decide),
        (show classify "y" = GateAnswer.yes by decide),
        (show classify "Y" = GateAnswer.yes by decide),
        (show classify "yes" = GateAnswer.yes by decide),
        (show classify "Yes" = GateAnswer.yes by decide)]
  · decide

end Parallelion
